import Mathlib

/-!
Verification of the Spyfall client's connection/session state machine
(src/frontend/src/App.js).

The React component keeps its session state in hooks: `optionSelected`,
`shouldCreate`, `name`, `room`, `players`, a mutable `playersRef` (read and
written by the websocket callbacks to avoid stale closures), `socket`,
`msg` (the game-start payload) and `err`.  We embed that state as a record
and the three handlers `handleConnect`'s first-message callback,
`handleBrokerMsg` and `handleClose` as pure state transformers.  The JS
dispatch `if (msg.Join) ... else if (msg.Left) ...` tests truthiness of the
payload, so a frame carrying the empty string falls through to the
catch-all branch; the embedding reproduces that with explicit emptiness
tests.
-/

/-- The `assignment` part of a game-start payload:
`{ location: string, role: string }`. -/
structure Assignment where
  location : String
  role : String
deriving DecidableEq, Repr

/-- The game-start payload `{ first: string, assignment: ... or null }`
stored by `setMsg(msg.Started)`. -/
structure GameStart where
  first : String
  assignment : Option Assignment
deriving DecidableEq, Repr

/-- Which callback is installed as `socket.onmessage`: the handshake
continuation set in `handleConnect`, or the steady-state
`handleBrokerMsg`. -/
inductive Handler where
  | handshake
  | broker
deriving DecidableEq, Repr

/-- The client's view of its transport: the installed message handler and
whether an `onclose` handler has been registered. -/
structure Socket where
  onmessage : Handler
  oncloseInstalled : Bool
deriving DecidableEq, Repr

/-- The session state of the `App` component: the hook values
`optionSelected`, `shouldCreate`, `name`, `room`, `socket`, `msg`, `err`,
the render-state `players`, and the mutable `playersRef.current` that the
websocket callbacks read and write. -/
structure Session where
  optionSelected : Bool
  shouldCreate : Bool
  name : String
  room : String
  playersRef : List String
  players : List String
  socket : Option Socket
  msg : Option GameStart
  err : Option String
deriving DecidableEq, Repr

/-- The phases of the spec's state machine, §4.2. -/
inductive Phase where
  | idle
  | inLobby
  | inGame
deriving DecidableEq, Repr

/-- The phase the rendered UI exhibits: `App` renders the lobby when a
socket is live and no game-start message has arrived, the game once `msg`
is set, and the entry/form screens (the spec's `Idle`) when there is no
socket. -/
def Session.phase (s : Session) : Phase :=
  match s.socket with
  | none => Phase.idle
  | some _ => if s.msg.isSome then Phase.inGame else Phase.inLobby

/-- A steady-state inbound frame, §6: `{Join: string}`, `{Left: string}`,
`{Started: payload}`, the literal `"NotEnoughPlayers"`, or anything
else. -/
inductive BrokerMsg where
  | join (name : String)
  | left (name : String)
  | started (payload : GameStart)
  | notEnoughPlayers
  | other
deriving DecidableEq, Repr

/-- Whether a frame is a roster delta (a `Join` or `Left` frame). -/
def BrokerMsg.isDelta : BrokerMsg → Bool
  | BrokerMsg.join _ => true
  | BrokerMsg.left _ => true
  | _ => false

/-- `handleBrokerMsg` from App.js.  `if (msg.Join)` is a truthiness test,
so `{Join: ""}` and `{Left: ""}` fall through to the logging branch.
`Join` appends the name to `playersRef.current` with
`[...playersRef.current, newPlayer]` and republishes it via `setPlayers`;
`Left` filters out every occurrence; `Started` stores the payload with
`setMsg`; the literal `"NotEnoughPlayers"` is stored with `setErr`; any
other frame is only logged. -/
def handleBrokerMsg (s : Session) (m : BrokerMsg) : Session :=
  match m with
  | BrokerMsg.join n =>
      if n ≠ "" then
        let newRef := s.playersRef ++ [n]
        { s with playersRef := newRef, players := newRef }
      else s
  | BrokerMsg.left n =>
      if n ≠ "" then
        let newRef := s.playersRef.filter (fun p => p != n)
        { s with playersRef := newRef, players := newRef }
      else s
  | BrokerMsg.started p => { s with msg := some p }
  | BrokerMsg.notEnoughPlayers => { s with err := some "NotEnoughPlayers" }
  | BrokerMsg.other => s

/-- Folding a sequence of inbound steady-state frames through
`handleBrokerMsg`, each invocation reading the state left by the previous
one (the code reads `playersRef.current`, never a captured value). -/
def applyMsgs (s : Session) (msgs : List BrokerMsg) : Session :=
  msgs.foldl handleBrokerMsg s

/-- The handshake response, the first inbound message after connect:
`{Ok: {room_id, players}}` or `{Err: code}`. -/
inductive HandshakeResp where
  | ok (room_id : String) (players : List String)
  | err (code : String)
deriving DecidableEq, Repr

/-- The first `socket.onmessage` callback installed by `handleConnect`.
On `{Ok: ...}` it clears `err`, stores the server's `room_id`, publishes
the initial roster into both `playersRef.current` and `players`, replaces
`socket.onmessage` with `handleBrokerMsg`, registers `handleClose` as
`socket.onclose`, and stores the socket.  On the `else` branch it stores
`null` for the socket and records `msg.Err`. -/
def handleHandshake (s : Session) (resp : HandshakeResp) : Session :=
  match resp with
  | HandshakeResp.ok rid ps =>
      { s with err := none, room := rid, playersRef := ps, players := ps,
               socket := some { onmessage := Handler.broker, oncloseInstalled := true } }
  | HandshakeResp.err code =>
      { s with socket := none, err := some code }

/-- `handleClose` from App.js: `setSocket(null); setRoom("");
setOptionSelected(false)`.  Note that it does not touch `err`. -/
def handleClose (s : Session) : Session :=
  { s with socket := none, room := "", optionSelected := false }

/-- Spec-side net membership, following §8's property statement:
membership of `n` is the initial membership bit `b` updated by the applied
deltas.  A delta is applied by the code only when its name is non-empty; a
`Join` of `n` makes `n` a member, a `Left` of `n` removes it, the most
recently applied delta wins. -/
def specNetMember (b : Bool) (n : String) : List BrokerMsg → Bool
  | [] => b
  | BrokerMsg.join a :: rest =>
      specNetMember (if a ≠ "" ∧ a = n then true else b) n rest
  | BrokerMsg.left a :: rest =>
      specNetMember (if a ≠ "" ∧ a = n then false else b) n rest
  | _ :: rest => specNetMember b n rest

/-- Whether every `Join` in the sequence carries a name that is absent
from the roster at the moment the frame is handled (empty names are never
applied, so they are exempt). -/
def freshJoins (s : Session) : List BrokerMsg → Bool
  | [] => true
  | BrokerMsg.join n :: rest =>
      decide (n = "" ∨ n ∉ s.playersRef)
        && freshJoins (handleBrokerMsg s (BrokerMsg.join n)) rest
  | m :: rest => freshJoins (handleBrokerMsg s m) rest

/-- A concrete lobby session used by the counterexamples and witnesses:
Alice alone in room R1, steady-state handler installed. -/
def sessionA : Session :=
  { optionSelected := true, shouldCreate := false, name := "Alice",
    room := "R1", playersRef := ["Alice"], players := ["Alice"],
    socket := some { onmessage := Handler.broker, oncloseInstalled := true },
    msg := none, err := none }

/-- A concrete pre-connect session (the player form, before any
handshake): no socket, empty roster, no pending error. -/
def sessionIdle : Session :=
  { optionSelected := true, shouldCreate := true, name := "Alice",
    room := "", playersRef := [], players := [],
    socket := none, msg := none, err := none }

/-- Unfolding one step of `applyMsgs`. -/
theorem applyMsgs_cons (s : Session) (m : BrokerMsg) (rest : List BrokerMsg) :
    applyMsgs s (m :: rest) = applyMsgs (handleBrokerMsg s m) rest := rfl

/-- `handleBrokerMsg` always republishes `playersRef.current` through
`setPlayers`, so the rendered `players` stays in sync with the ref. -/
theorem handleBrokerMsg_sync (s : Session) (m : BrokerMsg)
    (h : s.players = s.playersRef) :
    (handleBrokerMsg s m).players = (handleBrokerMsg s m).playersRef := by
  cases m <;> simp only [handleBrokerMsg] <;> first
    | exact h
    | (split <;> simp [h])

/-- The `players`/`playersRef` sync is preserved across any sequence of
steady-state frames. -/
theorem applyMsgs_sync (msgs : List BrokerMsg) (s : Session)
    (h : s.players = s.playersRef) :
    (applyMsgs s msgs).players = (applyMsgs s msgs).playersRef := by
  induction msgs generalizing s with
  | nil => exact h
  | cons m rest ih =>
    rw [applyMsgs_cons]
    exact ih _ (handleBrokerMsg_sync s m h)

/-- Membership in the roster after a fold of steady-state frames is
exactly the spec-side net membership computed from the initial
membership bit. -/
theorem applyMsgs_memberSpec (msgs : List BrokerMsg) (s : Session) (n : String) :
    n ∈ (applyMsgs s msgs).playersRef ↔
      specNetMember (s.playersRef.contains n) n msgs = true := by
  induction msgs generalizing s with
  | nil => simp [applyMsgs, specNetMember]
  | cons m rest ih =>
    rw [applyMsgs_cons]
    cases m with
    | join a =>
      by_cases ha : a = ""
      · subst ha
        rw [ih]
        simp [handleBrokerMsg, specNetMember]
      · rw [ih]
        have hcont : (handleBrokerMsg s (BrokerMsg.join a)).playersRef.contains n
            = if a ≠ "" ∧ a = n then true else s.playersRef.contains n := by
          by_cases han : a = n
          · subst han
            simp [handleBrokerMsg, ha]
          · have hrhs : (if a ≠ "" ∧ a = n then true else s.playersRef.contains n)
                = s.playersRef.contains n := by simp [han]
            have hlhs : (handleBrokerMsg s (BrokerMsg.join a)).playersRef
                = s.playersRef ++ [a] := by simp [handleBrokerMsg, ha]
            rw [hrhs, hlhs]
            simp [decide_eq_decide]
            intro hn
            exact absurd hn.symm han
        rw [hcont]
        simp [specNetMember]
    | left a =>
      by_cases ha : a = ""
      · subst ha
        rw [ih]
        simp [handleBrokerMsg, specNetMember]
      · rw [ih]
        have hcont : (handleBrokerMsg s (BrokerMsg.left a)).playersRef.contains n
            = if a ≠ "" ∧ a = n then false else s.playersRef.contains n := by
          by_cases han : a = n
          · subst han
            simp [handleBrokerMsg, ha, List.mem_filter]
          · have hrhs : (if a ≠ "" ∧ a = n then false else s.playersRef.contains n)
                = s.playersRef.contains n := by simp [han]
            have hlhs : (handleBrokerMsg s (BrokerMsg.left a)).playersRef
                = s.playersRef.filter (fun p => p != a) := by
              simp [handleBrokerMsg, ha]
            rw [hrhs, hlhs]
            simp [decide_eq_decide, List.mem_filter]
            intro hn
            simpa using fun hna => absurd hna.symm han
        rw [hcont]
        simp [specNetMember]
    | started p => rw [ih]; simp [handleBrokerMsg, specNetMember]
    | notEnoughPlayers => rw [ih]; simp [handleBrokerMsg, specNetMember]
    | other => rw [ih]; simp [handleBrokerMsg, specNetMember]

/-- A single steady-state frame preserves duplicate-freeness of the
roster, provided any `Join` it carries is fresh (or empty, hence
ignored). -/
theorem handleBrokerMsg_nodup (s : Session) (m : BrokerMsg)
    (hnd : s.playersRef.Nodup)
    (hm : ∀ a, m = BrokerMsg.join a → a = "" ∨ a ∉ s.playersRef) :
    (handleBrokerMsg s m).playersRef.Nodup := by
  cases m with
  | join a =>
    by_cases ha : a = ""
    · simpa [handleBrokerMsg, ha] using hnd
    · rcases hm a rfl with h1 | h2
      · exact absurd h1 ha
      · simp [handleBrokerMsg, ha, List.nodup_append, hnd, h2]
  | left a =>
    by_cases ha : a = ""
    · simpa [handleBrokerMsg, ha] using hnd
    · simpa [handleBrokerMsg, ha] using hnd.filter _
  | started p => exact hnd
  | notEnoughPlayers => exact hnd
  | other => exact hnd

/-- `freshJoins` restricted to a prefix of the event sequence. -/
theorem freshJoins_of_append (s : Session) (p q : List BrokerMsg)
    (h : freshJoins s (p ++ q) = true) : freshJoins s p = true := by
  induction p generalizing s with
  | nil => rfl
  | cons m rest ih =>
    cases m with
    | join a =>
      simp only [List.cons_append, freshJoins, Bool.and_eq_true] at h ⊢
      exact ⟨h.1, ih _ h.2⟩
    | left a => exact ih _ h
    | started pl => exact ih _ h
    | notEnoughPlayers => exact ih _ h
    | other => exact ih _ h

/-- Folding frames whose `Join`s are all fresh preserves roster
duplicate-freeness. -/
theorem applyMsgs_nodup (msgs : List BrokerMsg) (s : Session)
    (hnd : s.playersRef.Nodup) (hf : freshJoins s msgs = true) :
    (applyMsgs s msgs).playersRef.Nodup := by
  induction msgs generalizing s with
  | nil => exact hnd
  | cons m rest ih =>
    rw [applyMsgs_cons]
    cases m with
    | join a =>
      simp only [freshJoins, Bool.and_eq_true, decide_eq_true_eq] at hf
      refine ih _ (handleBrokerMsg_nodup s _ hnd ?_) hf.2
      intro b hb
      cases hb
      exact hf.1
    | left a =>
      exact ih _ (handleBrokerMsg_nodup s _ hnd (by intro b hb; cases hb)) hf
    | started pl =>
      exact ih _ (handleBrokerMsg_nodup s _ hnd (by intro b hb; cases hb)) hf
    | notEnoughPlayers =>
      exact ih _ (handleBrokerMsg_nodup s _ hnd (by intro b hb; cases hb)) hf
    | other =>
      exact ih _ (handleBrokerMsg_nodup s _ hnd (by intro b hb; cases hb)) hf

/-- `Join`/`Left` frames never touch the stored game-start payload. -/
theorem applyMsgs_msg_stable (msgs : List BrokerMsg) (s : Session)
    (hdelta : ∀ m ∈ msgs, m.isDelta = true) :
    (applyMsgs s msgs).msg = s.msg := by
  induction msgs generalizing s with
  | nil => rfl
  | cons m rest ih =>
    rw [applyMsgs_cons]
    have h1 := hdelta m (List.mem_cons_self m rest)
    have hrest : ∀ x ∈ rest, x.isDelta = true :=
      fun x hx => hdelta x (List.mem_cons_of_mem m hx)
    have hm : (handleBrokerMsg s m).msg = s.msg := by
      cases m with
      | join a => by_cases ha : a = "" <;> simp [handleBrokerMsg, ha]
      | left a => by_cases ha : a = "" <;> simp [handleBrokerMsg, ha]
      | started pl => simp [BrokerMsg.isDelta] at h1
      | notEnoughPlayers => simp [BrokerMsg.isDelta] at h1
      | other => simp [BrokerMsg.isDelta] at h1
    rw [ih _ hrest, hm]

/-- A lobby session with a pending `NotEnoughPlayers` error, Alice alone
in room R1. -/
def sessionB : Session :=
  { optionSelected := true, shouldCreate := false, name := "Alice",
    room := "R1", playersRef := ["Alice"], players := ["Alice"],
    socket := some { onmessage := Handler.broker, oncloseInstalled := true },
    msg := none, err := some "NotEnoughPlayers" }

/-- A concrete game-start payload. -/
def startPayload : GameStart := { first := "Bob", assignment := none }

/-- C1: for every session whose rendered roster is in sync with the live
ref, every sequence of `Join`/`Left` broker frames folded through
`handleBrokerMsg`, and every name, the name is in the resulting roster
exactly when the spec-side net membership (initial membership updated by
the applied deltas, order-insensitive) says so; the rendered roster equals
the live ref, each update having been computed from the state left by the
previous frame, never from a value captured at handler installation. -/
theorem roster_reflects_net_membership (s : Session) (msgs : List BrokerMsg)
    (n : String) (hdelta : ∀ m ∈ msgs, m.isDelta = true)
    (hsync : s.players = s.playersRef) :
    (n ∈ (applyMsgs s msgs).players ↔
      specNetMember (s.playersRef.contains n) n msgs = true) ∧
    (applyMsgs s msgs).players = (applyMsgs s msgs).playersRef := by
  have hs := applyMsgs_sync msgs s hsync
  rw [hs]
  exact ⟨applyMsgs_memberSpec msgs s n, rfl⟩

/-- Witness for C1: Alice's lobby, Bob joins then Alice leaves; Alice is
no longer a member. -/
theorem roster_reflects_net_membership_witness :
    (∀ m ∈ [BrokerMsg.join "Bob", BrokerMsg.left "Alice"], m.isDelta = true) ∧
    sessionA.players = sessionA.playersRef ∧
    (("Alice" ∈ (applyMsgs sessionA [BrokerMsg.join "Bob", BrokerMsg.left "Alice"]).players ↔
        specNetMember (sessionA.playersRef.contains "Alice") "Alice"
          [BrokerMsg.join "Bob", BrokerMsg.left "Alice"] = true) ∧
      (applyMsgs sessionA [BrokerMsg.join "Bob", BrokerMsg.left "Alice"]).players
        = (applyMsgs sessionA [BrokerMsg.join "Bob", BrokerMsg.left "Alice"]).playersRef) :=
  ⟨by decide, by decide,
    roster_reflects_net_membership sessionA _ "Alice" (by decide) (by decide)⟩

/-- C2 fails on the code: `handleBrokerMsg` performs no duplicate check,
so a `Join` carrying a name already in the roster is appended rather than
ignored, and the roster acquires a duplicate. -/
theorem duplicate_join_breaks_nodup :
    (handleBrokerMsg sessionA (BrokerMsg.join "Alice")).players = ["Alice", "Alice"] ∧
    ¬ (handleBrokerMsg sessionA (BrokerMsg.join "Alice")).players.Nodup := by
  decide

/-- C2 (amended): if the initial roster is duplicate-free and every
`Join` in the event sequence carries a name absent from the roster at the
moment it is applied (empty names are never applied), then the roster
after each event — i.e. after every prefix of the sequence — remains
duplicate-free.  A `Join` whose name is already present is NOT ignored:
it appends a duplicate. -/
theorem roster_nodup_under_fresh_joins (s : Session) (msgs p q : List BrokerMsg)
    (hnd : s.playersRef.Nodup) (hsync : s.players = s.playersRef)
    (hf : freshJoins s msgs = true) (hpq : msgs = p ++ q) :
    (applyMsgs s p).players.Nodup := by
  subst hpq
  have hp := freshJoins_of_append s p q hf
  rw [applyMsgs_sync p s hsync]
  exact applyMsgs_nodup p s hnd hp

/-- Witness for C2 (amended): Bob joins Alice's lobby, then Alice
leaves; after the first event the roster is still duplicate-free. -/
theorem roster_nodup_under_fresh_joins_witness :
    sessionA.playersRef.Nodup ∧
    sessionA.players = sessionA.playersRef ∧
    freshJoins sessionA [BrokerMsg.join "Bob", BrokerMsg.left "Alice"] = true ∧
    ([BrokerMsg.join "Bob", BrokerMsg.left "Alice"] : List BrokerMsg)
      = [BrokerMsg.join "Bob"] ++ [BrokerMsg.left "Alice"] ∧
    (applyMsgs sessionA [BrokerMsg.join "Bob"]).players.Nodup :=
  ⟨by decide, by decide, by decide, rfl,
    roster_nodup_under_fresh_joins sessionA _ [BrokerMsg.join "Bob"]
      [BrokerMsg.left "Alice"] (by decide) (by decide) (by decide) rfl⟩

/-- C3 fails on the code: from `roster=["Alice"]`, the frame
`{Join:"Bob"}` yields `["Alice","Bob"]` — the name is appended at the
back, not inserted at the front. -/
theorem join_not_inserted_at_front :
    (handleBrokerMsg sessionA (BrokerMsg.join "Bob")).players = ["Alice", "Bob"] ∧
    (handleBrokerMsg sessionA (BrokerMsg.join "Bob")).players ≠ ["Bob", "Alice"] := by
  decide

/-- C3 (amended): for every roster and every `Join(name)` frame whose
non-empty name is not already present, handling the frame appends the
name at the BACK of the roster; in particular from `roster=["Alice"]` the
frame `{Join:"Bob"}` yields `["Alice","Bob"]`. -/
theorem join_appends_at_back (s : Session) (n : String)
    (hne : n ≠ "") (habs : n ∉ s.playersRef) (hsync : s.players = s.playersRef) :
    (handleBrokerMsg s (BrokerMsg.join n)).players = s.players ++ [n] ∧
    (handleBrokerMsg s (BrokerMsg.join n)).playersRef = s.playersRef ++ [n] := by
  simp [handleBrokerMsg, hne, hsync]

/-- Witness for C3 (amended): Bob joins Alice's lobby and lands at the
back of the roster. -/
theorem join_appends_at_back_witness :
    ("Bob" : String) ≠ "" ∧
    ("Bob" : String) ∉ sessionA.playersRef ∧
    sessionA.players = sessionA.playersRef ∧
    ((handleBrokerMsg sessionA (BrokerMsg.join "Bob")).players
        = sessionA.players ++ ["Bob"] ∧
      (handleBrokerMsg sessionA (BrokerMsg.join "Bob")).playersRef
        = sessionA.playersRef ++ ["Bob"]) :=
  ⟨by decide, by decide, by decide,
    join_appends_at_back sessionA "Bob" (by decide) (by decide) (by decide)⟩

/-- C4 fails on the code as stated: nothing ever clears `msg` — `setMsg`
is never called in `handleConnect` and `handleClose` resets only the
socket, the room and the option flag — so after a `Started` frame and a
transport close, the old game-start payload survives into the next
pre-connect state (which genuinely has no socket).  A handshake success
received there yields the `InGame` phase (the app renders the Game
screen), not `InLobby`. -/
theorem handshake_ok_after_stale_start_not_lobby :
    (handleClose (handleBrokerMsg sessionA (BrokerMsg.started startPayload))).socket
      = none ∧
    (handleHandshake
        (handleClose (handleBrokerMsg sessionA (BrokerMsg.started startPayload)))
        (HandshakeResp.ok "R2" ["Dana"])).phase = Phase.inGame ∧
    (handleHandshake
        (handleClose (handleBrokerMsg sessionA (BrokerMsg.started startPayload)))
        (HandshakeResp.ok "R2" ["Dana"])).phase ≠ Phase.inLobby := by
  decide

/-- C4 (amended): a handshake success response, received in a session
whose game-start slot is empty (true of any fresh session, but not
guaranteed after an earlier game: the code never clears `msg`), clears
the error, stores the server's room id, publishes the response's player
list as the roster (both ref and rendered copy), installs the broker
handler and a close handler on the socket, and lands in the `InLobby`
phase; Scenario A is the concrete instance
`{Ok:{room_id:"R1", players:["Alice"]}}`. -/
theorem handshake_ok_transitions (s : Session) (rid : String) (ps : List String)
    (hmsg : s.msg = none) :
    (handleHandshake s (HandshakeResp.ok rid ps)).err = none ∧
    (handleHandshake s (HandshakeResp.ok rid ps)).room = rid ∧
    (handleHandshake s (HandshakeResp.ok rid ps)).players = ps ∧
    (handleHandshake s (HandshakeResp.ok rid ps)).playersRef = ps ∧
    (handleHandshake s (HandshakeResp.ok rid ps)).socket =
      some { onmessage := Handler.broker, oncloseInstalled := true } ∧
    (handleHandshake s (HandshakeResp.ok rid ps)).phase = Phase.inLobby ∧
    (handleHandshake sessionIdle (HandshakeResp.ok "R1" ["Alice"])).phase = Phase.inLobby ∧
    (handleHandshake sessionIdle (HandshakeResp.ok "R1" ["Alice"])).players = ["Alice"] ∧
    (handleHandshake sessionIdle (HandshakeResp.ok "R1" ["Alice"])).room = "R1" := by
  refine ⟨rfl, rfl, rfl, rfl, rfl, ?_, by decide, by decide, by decide⟩
  simp [Session.phase, handleHandshake, hmsg]

/-- Witness for C4 at the pre-connect session and Scenario A's
response. -/
theorem handshake_ok_transitions_witness :
    sessionIdle.msg = none ∧
    (handleHandshake sessionIdle (HandshakeResp.ok "R1" ["Alice"])).phase = Phase.inLobby :=
  ⟨rfl, (handshake_ok_transitions sessionIdle "R1" ["Alice"] rfl).2.2.2.2.2.1⟩

/-- C5: a handshake failure response discards the transport (the session
keeps no socket), records the carried error code, and leaves the session
in the `Idle` phase; Scenario F is the concrete instance
`{Err:"UsernameTaken"}`. -/
theorem handshake_err_transitions (s : Session) (code : String) :
    (handleHandshake s (HandshakeResp.err code)).socket = none ∧
    (handleHandshake s (HandshakeResp.err code)).err = some code ∧
    (handleHandshake s (HandshakeResp.err code)).phase = Phase.idle ∧
    (handleHandshake sessionIdle (HandshakeResp.err "UsernameTaken")).phase = Phase.idle ∧
    (handleHandshake sessionIdle (HandshakeResp.err "UsernameTaken")).err
      = some "UsernameTaken" ∧
    (handleHandshake sessionIdle (HandshakeResp.err "UsernameTaken")).socket = none :=
  ⟨rfl, rfl, rfl, by decide, by decide, by decide⟩

/-- C6 fails on the code: `handleClose` only resets the socket, the room
and the option flag; it never touches `err`, so a pending error survives
the close instead of being cleared. -/
theorem close_does_not_clear_err :
    (handleClose sessionB).err = some "NotEnoughPlayers" ∧
    (handleClose sessionB).err ≠ none := by
  decide

/-- C6 (amended): a transport close discards the transport, resets the
room id to the empty string and returns the session to the `Idle` phase,
but leaves `lastError` unchanged — the reset does not clear it. -/
theorem close_resets_state (s : Session) :
    (handleClose s).socket = none ∧
    (handleClose s).room = "" ∧
    (handleClose s).phase = Phase.idle ∧
    (handleClose s).err = s.err ∧
    (handleClose s).optionSelected = false :=
  ⟨rfl, rfl, rfl, rfl, rfl⟩

/-- C7: once a `Started` frame stores its payload and (in a session
holding a live socket) moves the phase to `InGame`, no subsequent
sequence of `Join`/`Left` frames alters the stored payload. -/
theorem gameStart_stable_after_started (s : Session) (p : GameStart)
    (msgs : List BrokerMsg) (hsock : s.socket.isSome = true)
    (hdelta : ∀ m ∈ msgs, m.isDelta = true) :
    (handleBrokerMsg s (BrokerMsg.started p)).msg = some p ∧
    (handleBrokerMsg s (BrokerMsg.started p)).phase = Phase.inGame ∧
    (applyMsgs (handleBrokerMsg s (BrokerMsg.started p)) msgs).msg = some p := by
  refine ⟨rfl, ?_, ?_⟩
  · obtain ⟨sk, hsk⟩ := Option.isSome_iff_exists.mp hsock
    simp [Session.phase, handleBrokerMsg, hsk]
  · rw [applyMsgs_msg_stable msgs _ hdelta]
    rfl

/-- Witness for C7: the game starts in Alice's lobby and Carol's later
join leaves the stored payload intact. -/
theorem gameStart_stable_after_started_witness :
    sessionA.socket.isSome = true ∧
    (∀ m ∈ [BrokerMsg.join "Carol"], m.isDelta = true) ∧
    (applyMsgs (handleBrokerMsg sessionA (BrokerMsg.started startPayload))
      [BrokerMsg.join "Carol"]).msg = some startPayload :=
  ⟨by decide, by decide,
    (gameStart_stable_after_started sessionA startPayload [BrokerMsg.join "Carol"]
      (by decide) (by decide)).2.2⟩

/-- C8: in the `InLobby` phase, the literal `"NotEnoughPlayers"` frame
records that error kind and changes nothing else — the phase is still
`InLobby` and every other field, the roster included, is untouched. -/
theorem notEnoughPlayers_only_sets_err (s : Session)
    (h : s.phase = Phase.inLobby) :
    (handleBrokerMsg s BrokerMsg.notEnoughPlayers).err = some "NotEnoughPlayers" ∧
    (handleBrokerMsg s BrokerMsg.notEnoughPlayers).phase = Phase.inLobby ∧
    (handleBrokerMsg s BrokerMsg.notEnoughPlayers).players = s.players ∧
    (handleBrokerMsg s BrokerMsg.notEnoughPlayers).playersRef = s.playersRef ∧
    (handleBrokerMsg s BrokerMsg.notEnoughPlayers).room = s.room ∧
    (handleBrokerMsg s BrokerMsg.notEnoughPlayers).msg = s.msg ∧
    (handleBrokerMsg s BrokerMsg.notEnoughPlayers).socket = s.socket ∧
    (handleBrokerMsg s BrokerMsg.notEnoughPlayers).name = s.name ∧
    (handleBrokerMsg s BrokerMsg.notEnoughPlayers).optionSelected = s.optionSelected ∧
    (handleBrokerMsg s BrokerMsg.notEnoughPlayers).shouldCreate = s.shouldCreate :=
  ⟨rfl, h, rfl, rfl, rfl, rfl, rfl, rfl, rfl, rfl⟩

/-- Witness for C8 in Alice's lobby (Scenario D). -/
theorem notEnoughPlayers_only_sets_err_witness :
    sessionA.phase = Phase.inLobby ∧
    (handleBrokerMsg sessionA BrokerMsg.notEnoughPlayers).err = some "NotEnoughPlayers" ∧
    (handleBrokerMsg sessionA BrokerMsg.notEnoughPlayers).phase = Phase.inLobby :=
  ⟨by decide,
    (notEnoughPlayers_only_sets_err sessionA (by decide)).1,
    (notEnoughPlayers_only_sets_err sessionA (by decide)).2.1⟩

/-- C9: a steady-state frame that is none of `Join`, `Left`, `Started`
or the literal `"NotEnoughPlayers"` reaches only the logging branch of
`handleBrokerMsg` and leaves the whole session state — roster, phase,
game-start payload, error and room id — unchanged. -/
theorem unrecognized_frame_noop (s : Session) :
    handleBrokerMsg s BrokerMsg.other = s :=
  rfl

/-- C10: because the dispatch tests the truthiness of `msg.Join` and
`msg.Left`, a frame carrying the empty string as the name falls through
to the logging branch: it changes nothing, and in particular
`{Left:""}` never removes an empty-named participant from the roster. -/
theorem empty_name_frames_ignored (s : Session) :
    handleBrokerMsg s (BrokerMsg.join "") = s ∧
    handleBrokerMsg s (BrokerMsg.left "") = s ∧
    (handleBrokerMsg s (BrokerMsg.left "")).players = s.players := by
  refine ⟨?_, ?_, ?_⟩ <;> simp [handleBrokerMsg]
